import Mathlib

/-!
Verification development for the Prebid Server cookie-sync creative
(`src/cookieSyncWithConsent.js`).

The JavaScript source is shallowly embedded below:
* pure helper functions (`sanitizeSyncCount`, `sanitizeTimeout`,
  `sanitizeScope`, `attachConsent`, `getStringifiedData`, `isValidUrl`,
  `doBidderSync`, `doAllSyncs`, `process`) become Lean functions;
* the single-threaded event loop (the `setTimeout` handler and the
  `message` listener racing to call `init`) becomes an explicit step
  function over a page state, driven by a list of events;
* JavaScript numbers reaching the sanitizers are `parseInt` results,
  modelled as `Option Int` (`none` = `NaN`);
* a JavaScript exception escaping a handler (there is no `try`/`catch`
  around `JSON.parse` in `process`) is modelled with `Except.error`.
-/

namespace CookieSync

/-! ## Character classes used by the embedded regular expression and parsers

Character comparisons are made on code points (`Char.toNat`): `'0'` = 48,
`'9'` = 57, `'a'` = 97, `'z'` = 122, `'-'` = 45, `'+'` = 43.
-/

/-- JavaScript's `\s` class (whitespace), as used by `\S` in the URL regex and
by `parseInt`'s leading-whitespace trimming. -/
def jsSpace (c : Char) : Bool :=
  c.toNat = 32 || c.toNat = 9 || c.toNat = 10 || c.toNat = 11 || c.toNat = 12 ||
  c.toNat = 13 || c.toNat = 0xa0 || c.toNat = 0x1680 ||
  (0x2000 ≤ c.toNat && c.toNat ≤ 0x200a) ||
  c.toNat = 0x2028 || c.toNat = 0x2029 || c.toNat = 0x202f ||
  c.toNat = 0x205f || c.toNat = 0x3000 || c.toNat = 0xfeff

/-- `\S` : any non-whitespace character. -/
def nonSpaceChar (c : Char) : Bool := !(jsSpace c)

/-- `\d` : ASCII digit. -/
def isDigitChar (c : Char) : Bool := 48 ≤ c.toNat && c.toNat ≤ 57

/-- `[a-z0-9¡-￿]` from the host part of the URL regex (the input is
lowercased first, mirroring the regex's `i` flag).  A code point above
`0xffff` is two UTF-16 surrogate code units in JavaScript, both inside
`¡-￿`, so the class accepts every code point `≥ 0xa1`. -/
def hostLetter (c : Char) : Bool :=
  (97 ≤ c.toNat && c.toNat ≤ 122) || isDigitChar c || 0xa1 ≤ c.toNat

/-- `[a-z0-9¡-￿_-]` : interior label characters. -/
def hostMid (c : Char) : Bool := hostLetter c || c = '_' || c = '-'

/-- `[a-z¡-￿]` : TLD characters. -/
def tldLetter (c : Char) : Bool :=
  (97 ≤ c.toNat && c.toNat ≤ 122) || 0xa1 ≤ c.toNat

/-- `[/?#]` : the first character of the optional path part. -/
def pathStart (c : Char) : Bool := c = '/' || c = '?' || c = '#'

/-! ## A small nondeterministic regex matcher

A `Matcher` consumes a prefix of its input and returns the list of all
possible remainders; a regex matches a whole string iff some remainder is
empty.  This gives exactly the match-existence semantics of a backtracking
regex engine, including negative lookahead (`mnot`). -/

/-- A matching step: all suffixes reachable by consuming a matched prefix. -/
def Matcher : Type := List Char → List (List Char)

/-- Match a literal character sequence. -/
def mlit : List Char → List Char → List (List Char)
  | [], s => [s]
  | _ :: _, [] => []
  | c :: cs, c' :: s => if c = c' then mlit cs s else []

/-- Match a literal string. -/
def mstr (t : String) : Matcher := fun s => mlit t.data s

/-- Sequencing of two regex parts. -/
def mseq (a b : Matcher) : Matcher := fun s => (a s).flatMap b

/-- Alternation `x|y`. -/
def malt (a b : Matcher) : Matcher := fun s => a s ++ b s

/-- Option `x?`. -/
def mopt (a : Matcher) : Matcher := fun s => a s ++ [s]

/-- Negative lookahead `(?!x)` : consumes nothing, succeeds iff `x` matches
no prefix of the remaining input. -/
def mnot (a : Matcher) : Matcher := fun s => if (a s).isEmpty then [s] else []

/-- Match one character of a class. -/
def mchar (p : Char → Bool) : Matcher := fun s =>
  match s with
  | [] => []
  | c :: rest => if p c then [rest] else []

/-- `x{n}` : exactly `n` repetitions. -/
def mrep (a : Matcher) : Nat → Matcher
  | 0 => fun s => [s]
  | n + 1 => mseq a (mrep a n)

/-- A character class repeated between `lo` and `hi` times (`hi = none`
meaning unbounded): `c{lo,}`, `c{lo,hi}`, `c*`, `c+`. -/
def mcharRange (p : Char → Bool) : Nat → Option Nat → List Char → List (List Char)
  | lo, _, [] => if lo = 0 then [[]] else []
  | lo, hi, c :: rest =>
    (if lo = 0 then [c :: rest] else []) ++
    (if p c && hi != some 0 then
       mcharRange p (lo - 1) (Option.map (fun m => m - 1) hi) rest
     else [])

/-- `x*` for a general sub-matcher, with explicit fuel (the input length
bounds the number of repetitions of any consuming sub-matcher). -/
def mmany (a : Matcher) : Nat → Matcher
  | 0 => fun s => [s]
  | f + 1 => fun s => s :: (a s).flatMap (mmany a f)

/-! ## The URL validator

`isValidUrl` embeds the regex literal from the source (the one assigned to
`isValidUrl` and used via `.test`), piece by piece:

`^(?:(?:(?:https?|ftp):)?\/\/)(?:\S+(?::\S*)?@)?(?:(?!(?:10|127)(?:\.\d{1,3}){3})(?!(?:169\.254|192\.168)(?:\.\d{1,3}){2})(?!172\.(?:1[6-9]|2\d|3[0-1])(?:\.\d{1,3}){2})(?:[1-9]\d?|1\d\d|2[01]\d|22[0-3])(?:\.(?:1?\d{1,2}|2[0-4]\d|25[0-5])){2}(?:\.(?:[1-9]\d?|1\d\d|2[0-4]\d|25[0-4]))|(?:(?:[a-z0-9¡-￿][a-z0-9¡-￿_-]{0,62})?[a-z0-9¡-￿]\.)+(?:[a-z¡-￿]{2,}\.?))(?::\d{2,5})?(?:[/?#]\S*)?$/i`
-/

/-- `(?:(?:https?|ftp):)?//` : optional scheme, mandatory `//`. -/
def schemePart : Matcher :=
  mseq (mopt (mseq (malt (mstr "https") (malt (mstr "http") (mstr "ftp")))
                   (mstr ":")))
       (mstr "//")

/-- `(?:\S+(?::\S*)?@)?` : optional userinfo. -/
def userinfoPart : Matcher :=
  mopt (mseq (mcharRange nonSpaceChar 1 none)
             (mseq (mopt (mseq (mstr ":") (mcharRange nonSpaceChar 0 none)))
                   (mstr "@")))

/-- `\.\d{1,3}` : a dot followed by one to three digits. -/
def dotDigits13 : Matcher := mseq (mstr ".") (mcharRange isDigitChar 1 (some 3))

/-- Lookahead body `(?:10|127)(?:\.\d{1,3}){3}`. -/
def look1 : Matcher := mseq (malt (mstr "10") (mstr "127")) (mrep dotDigits13 3)

/-- Lookahead body `(?:169\.254|192\.168)(?:\.\d{1,3}){2}`. -/
def look2 : Matcher :=
  mseq (malt (mstr "169.254") (mstr "192.168")) (mrep dotDigits13 2)

/-- Lookahead body `172\.(?:1[6-9]|2\d|3[0-1])(?:\.\d{1,3}){2}`. -/
def look3 : Matcher :=
  mseq (mstr "172.")
    (mseq (malt (mseq (mstr "1") (mchar (fun c => 54 ≤ c.toNat && c.toNat ≤ 57)))
          (malt (mseq (mstr "2") (mchar isDigitChar))
                (mseq (mstr "3") (mchar (fun c => c = '0' || c = '1')))))
      (mrep dotDigits13 2))

/-- First IP octet `[1-9]\d?|1\d\d|2[01]\d|22[0-3]`. -/
def octetFirst : Matcher :=
  malt (mseq (mchar (fun c => 49 ≤ c.toNat && c.toNat ≤ 57)) (mopt (mchar isDigitChar)))
  (malt (mseq (mstr "1") (mseq (mchar isDigitChar) (mchar isDigitChar)))
  (malt (mseq (mstr "2") (mseq (mchar (fun c => c = '0' || c = '1')) (mchar isDigitChar)))
        (mseq (mstr "22") (mchar (fun c => 48 ≤ c.toNat && c.toNat ≤ 51)))))

/-- Middle IP octet `1?\d{1,2}|2[0-4]\d|25[0-5]`. -/
def octetMid : Matcher :=
  malt (mseq (mopt (mstr "1")) (mcharRange isDigitChar 1 (some 2)))
  (malt (mseq (mstr "2") (mseq (mchar (fun c => 48 ≤ c.toNat && c.toNat ≤ 52)) (mchar isDigitChar)))
        (mseq (mstr "25") (mchar (fun c => 48 ≤ c.toNat && c.toNat ≤ 53))))

/-- Last IP octet `[1-9]\d?|1\d\d|2[0-4]\d|25[0-4]`. -/
def octetLast : Matcher :=
  malt (mseq (mchar (fun c => 49 ≤ c.toNat && c.toNat ≤ 57)) (mopt (mchar isDigitChar)))
  (malt (mseq (mstr "1") (mseq (mchar isDigitChar) (mchar isDigitChar)))
  (malt (mseq (mstr "2") (mseq (mchar (fun c => 48 ≤ c.toNat && c.toNat ≤ 52)) (mchar isDigitChar)))
        (mseq (mstr "25") (mchar (fun c => 48 ≤ c.toNat && c.toNat ≤ 52)))))

/-- The IP-address host alternative, with its three negative lookaheads
rejecting the 10/127, 169.254/192.168 and 172.16-31 private/loopback
ranges. -/
def ipHost : Matcher :=
  mseq (mnot look1) (mseq (mnot look2) (mseq (mnot look3)
    (mseq octetFirst
      (mseq (mrep (mseq (mstr ".") octetMid) 2) (mseq (mstr ".") octetLast)))))

/-- One host label `(?:[a-z0-9...][a-z0-9..._-]{0,62})?[a-z0-9...]\.`. -/
def labelPart : Matcher :=
  mseq (mopt (mseq (mchar hostLetter) (mcharRange hostMid 0 (some 62))))
       (mseq (mchar hostLetter) (mstr "."))

/-- The named-host alternative: one or more labels, then a TLD
`[a-z...]{2,}` with an optional trailing dot. -/
def domainHost (fuel : Nat) : Matcher :=
  mseq (mseq labelPart (mmany labelPart fuel))
       (mseq (mcharRange tldLetter 2 none) (mopt (mstr ".")))

/-- `(?::\d{2,5})?` : optional port. -/
def portPart : Matcher := mopt (mseq (mstr ":") (mcharRange isDigitChar 2 (some 5)))

/-- `(?:[/?#]\S*)?` : optional path/query/fragment. -/
def pathPart : Matcher := mopt (mseq (mchar pathStart) (mcharRange nonSpaceChar 0 none))

/-- The whole anchored regex. -/
def urlRegex (fuel : Nat) : Matcher :=
  mseq schemePart
    (mseq userinfoPart
      (mseq (malt ipHost (domainHost fuel)) (mseq portPart pathPart)))

/-- `isValidUrl.test(url)` : the regex (with the `i` flag, hence the
lowercasing) must match the whole string (`^...$`). -/
def isValidUrl (s : String) : Bool :=
  let cs := s.data.map Char.toLower
  ((urlRegex cs.length) cs).any List.isEmpty

/-! ## `parseInt(s, 10)`

Every numeric page parameter flows through `parseInt(..., 10)` before
reaching its sanitizer, so the sanitizers' input domain is `Option Int`:
`none` models `NaN`, `some i` an integer result.  `jsParseInt` models
`parseInt` with radix 10: trim leading whitespace, optional sign, then the
longest prefix of ASCII digits (`NaN` if empty). -/

/-- Accumulate the value of a list of ASCII digit characters. -/
def digitsVal : Nat → List Char → Nat
  | acc, [] => acc
  | acc, c :: rest => digitsVal (acc * 10 + (c.toNat - 48)) rest

/-- The digit-prefix step of `parseInt`: longest digit prefix, `NaN` if empty. -/
def parseDigits (cs : List Char) : Option Nat :=
  let ds := cs.takeWhile isDigitChar
  if ds.isEmpty then none else some (digitsVal 0 ds)

/-- The sign-and-digits step of `parseInt`, after whitespace trimming. -/
def jsParseIntAux : List Char → Option Int
  | [] => none
  | c :: rest =>
    if c = '-' then (parseDigits rest).map (fun n => -(Int.ofNat n))
    else if c = '+' then (parseDigits rest).map Int.ofNat
    else (parseDigits (c :: rest)).map Int.ofNat

/-- `parseInt(s, 10)`; `none` is `NaN`. -/
def jsParseInt (s : String) : Option Int :=
  jsParseIntAux (s.data.dropWhile jsSpace)

/-! ## Decimal rendering of an integer

`sanitizeTimeout` tests `value === parseInt(value, 10)`, which stringifies
the number and reparses it.  `jsIntToString` models `String(value)` for an
integer value (the only kind `sanitizeTimeout` ever receives, since its
argument is itself a `parseInt` result).  ECMAScript `Number::toString`
renders an integer in plain decimal only while its magnitude is below
`1e21`; from `1e21` on it switches to exponential notation (for instance
`String(1e21)` is `"1e+21"`), on which `parseInt` stops at the first
non-digit, so the reparse check fails there. -/

/-- The decimal digit character for `d % 10`. -/
def decDigit : Nat → Char
  | 0 => '0' | 1 => '1' | 2 => '2' | 3 => '3' | 4 => '4'
  | 5 => '5' | 6 => '6' | 7 => '7' | 8 => '8' | _ => '9'

/-- Decimal digits of `n`, most significant first; structural in `fuel`
(`fuel > n` suffices). -/
def natDecAux : Nat → Nat → List Char
  | 0, _ => []
  | fuel + 1, n =>
    if n < 10 then [decDigit n]
    else natDecAux fuel (n / 10) ++ [decDigit (n % 10)]

/-- Decimal digits of `n`, most significant first. -/
def natDecRepr (n : Nat) : List Char := natDecAux (n + 1) n

/-- The significand digits of the exponential notation: the decimal digits
of `n` with trailing zeros stripped. -/
def sigDigits (n : Nat) : List Char :=
  ((natDecRepr n).reverse.dropWhile (fun c => c = '0')).reverse

/-- Exponential notation for a (large) integer magnitude: the significand
with a decimal point after its first digit, then `e+` and the decimal
exponent, as `Number::toString` produces for magnitudes `≥ 1e21`
(`"1e+21"`, `"1.234e+21"`, ...). -/
def expNotation (n : Nat) : List Char :=
  (match sigDigits n with
   | [] => ['0']
   | [d] => [d]
   | d :: rest => d :: '.' :: rest) ++ 'e' :: '+' :: natDecRepr ((natDecRepr n).length - 1)

/-- `String(i)` for an integer JavaScript number: plain decimal below
`1e21` in magnitude, exponential notation at or above. -/
def jsIntToString (i : Int) : String :=
  if i.natAbs < 1000000000000000000000 then
    (if i < 0 then ⟨'-' :: natDecRepr i.natAbs⟩ else ⟨natDecRepr i.natAbs⟩)
  else
    (if i < 0 then ⟨'-' :: expNotation i.natAbs⟩ else ⟨expNotation i.natAbs⟩)

/-! ## The parameter sanitizers -/

/-- `sanitizeSyncCount` : `isNaN(value) || value < 0` is replaced by the
IE-safe maximum safe integer, anything else (zero included) is kept. -/
def sanitizeSyncCount (value : Option Int) : Int :=
  match value with
  | none => 9007199254740991
  | some v => if v < 0 then 9007199254740991 else v

/-- The module-level `MAX_SYNC_COUNT` pipeline:
`sanitizeSyncCount(parseInt((maxSyncCountParam) ? maxSyncCountParam : 10, 10))`.
An absent query parameter is the empty string (falsy), so the default `10`
is stringified and parsed instead. -/
def maxSyncCountOf (param : String) : Int :=
  sanitizeSyncCount (jsParseInt (if param = "" then "10" else param))

/-- `sanitizeScope` : keep the value only if it is exactly `0` or `1`,
otherwise default to `1`. -/
def sanitizeScope (value : Option Int) : Int :=
  match value with
  | none => 1
  | some v => if v = 0 ∨ v = 1 then v else 1

/-- `sanitizeTimeout` : `!isNaN(value) && value === parseInt(value, 10)`
keeps `value`, otherwise `10000`.  The reparse check is written out
literally: stringify the number and run `parseInt` on it. -/
def sanitizeTimeout (value : Option Int) : Int :=
  match value with
  | none => 10000
  | some v => if jsParseInt (jsIntToString v) = some v then v else 10000

/-- The module-level `TIMEOUT` pipeline:
`sanitizeTimeout(parseInt(parseQueryParam('timeout', ...), 10))`. -/
def timeoutOf (param : String) : Int := sanitizeTimeout (jsParseInt param)

/-! ## The request payload as a JavaScript object

The payload built by `getStringifiedData` is a JavaScript object; it is
modelled as an insertion-ordered key/value list.  `setKey` is property
assignment (`data['k'] = v`): overwrite in place if the key exists,
append otherwise.  `JSON.stringify` serializes exactly the keys present,
so "the serialized payload has no `gdpr` field" is `getKey p "gdpr" = none`. -/

/-- A JavaScript primitive value as it appears in the payload. -/
inductive JsVal where
  | str (s : String)
  | num (n : Int)
deriving DecidableEq

/-- A JavaScript object: insertion-ordered properties. -/
abbrev Obj : Type := List (String × JsVal)

/-- Property read: first binding of the key, `none` if absent. -/
def getKey : Obj → String → Option JsVal
  | [], _ => none
  | (k', v) :: rest, k => if k' = k then some v else getKey rest k

/-- Property assignment `o[k] = v`. -/
def setKey (o : Obj) (k : String) (v : JsVal) : Obj :=
  if o.any (fun kv => kv.1 = k) then
    o.map (fun kv => if kv.1 = k then (k, v) else kv)
  else o ++ [(k, v)]

/-! ## Consent state and the payload builder

The global `consent` starts as `{}`; a consent-data message overwrites it
with the whole message payload.  `attachConsent` only reads
`consent.consentMetadata` (an object carrying `gdprApplies`) and
`consent.consentString`, so the consent state is modelled by those two
fields: `consentMetadata : Option Bool` is `none` when the property is
absent/falsy and `some b` when present with `gdprApplies` of truthiness
`b`; `consentString : Option String` is `none` when absent (the code
replaces a falsy value by `""`). -/

/-- `attachConsent(data)`, with the global `consent`'s two read fields
passed explicitly. -/
def attachConsent (consentMetadata : Option Bool) (consentString : Option String)
    (data : Obj) : Obj :=
  match consentMetadata with
  | none => data
  | some gdprApplies =>
    if gdprApplies then
      setKey (setKey data "gdpr" (JsVal.num 1)) "gdpr_consent"
        (JsVal.str (consentString.getD ""))
    else setKey data "gdpr" (JsVal.num 0)

/-- `getStringifiedData(endPointArgs)` up to (and modelled at the level of)
the object that `JSON.stringify` serializes: start from the sanitized
endpoint args (or `{}`), assign `limit = MAX_SYNC_COUNT`, then attach
consent. -/
def getStringifiedData (endPointArgs : Option Obj) (maxSyncCount : Int)
    (consentMetadata : Option Bool) (consentString : Option String) : Obj :=
  let data := endPointArgs.getD []
  attachConsent consentMetadata consentString (setKey data "limit" (JsVal.num maxSyncCount))

/-! ## Transport helpers and the bidder dispatcher

A transport mechanism is modelled by the list of loads it triggers plus
the number of times it invokes the `done` continuation.  The pixel path
registers `done` on both `load` and `error` (exactly one of which fires);
the iframe path fires `done` on `load`, which browsers fire even for
unresolvable hosts — but returns without ever calling `done` when its
`url` is falsy. -/

/-- A triggered sync load. -/
inductive TransportCall where
  | pixel (url : String)
  | iframe (url : String) (bidder : String)
deriving DecidableEq

/-- The observable effect of one transport invocation: loads triggered and
number of `done` invocations. -/
structure SyncStep where
  calls : List TransportCall
  done : Nat
deriving DecidableEq

/-- `triggerPixel(url, done)` : one image load; `done` fires on `load` or
`error`, exactly once either way. -/
def triggerPixel (url : String) : SyncStep :=
  { calls := [TransportCall.pixel url], done := 1 }

/-- `triggerIframeLoad(url, bidder, done)` : early-returns (never invoking
`done`) on a falsy `url`, otherwise inserts the iframe and fires `done` on
its `load` event. -/
def triggerIframeLoad (url : String) (bidder : String) : SyncStep :=
  if url = "" then { calls := [], done := 0 }
  else { calls := [TransportCall.iframe url bidder], done := 1 }

/-- `doBidderSync(type, url, bidder, done)`.  A falsy (`""`) or
regex-invalid URL, and an unsupported sync type, both log and call `done`
directly. -/
def doBidderSync (type url bidder : String) : SyncStep :=
  if url = "" ∨ isValidUrl url = false then { calls := [], done := 1 }
  else if type = "image" ∨ type = "redirect" then triggerPixel url
  else if type = "iframe" then triggerIframeLoad url bidder
  else { calls := [], done := 1 }

/-- One entry of `bidder_status` in the cookie-sync response. -/
structure UserSync where
  type : String
  url : String
deriving DecidableEq

/-- A bidder's sync status record. -/
structure BidderStatus where
  bidder : String
  no_cookie : Bool
  usersync : UserSync
deriving DecidableEq

/-- `doAllSyncs(bidders)` : pop the last bidder; if it reports
`no_cookie`, run its sync with the recursion on the remaining list as the
`done` continuation (so the rest runs only if `done` fires); otherwise
recurse directly.  The result is the sequence of transport loads
triggered. -/
def doAllSyncs (bidders : List BidderStatus) : List TransportCall :=
  match h : bidders.getLast? with
  | none => []
  | some thisSync =>
    let rest := bidders.dropLast
    if thisSync.no_cookie then
      let s := doBidderSync thisSync.usersync.type thisSync.usersync.url thisSync.bidder
      s.calls ++ (if s.done ≠ 0 then doAllSyncs rest else [])
    else doAllSyncs rest
termination_by bidders.length
decreasing_by
  all_goals
    cases bidders with
    | nil => simp at h
    | cons b t => simp [List.length_dropLast]

/-! ## Response processing

`process` parses the response body and dispatches the syncs.  The body is
passed already decoded: `none` models a body on which `JSON.parse` throws,
`some r` a parsed object.  `process` has no `try`/`catch`, and it runs
inside the asynchronous `onreadystatechange` callback — outside the
`try` block of `ajax`, which only covers `ajax`'s own synchronous body —
so a parse failure is an exception escaping to the global handler,
modelled as `Except.error`. -/

/-- The parsed response envelope: `status` and `bidder_status` may each be
absent. -/
structure SyncResponse where
  status : Option String
  bidder_status : Option (List BidderStatus)
deriving DecidableEq

/-- `process(response)`. -/
def process (parsed : Option SyncResponse) : Except String (List TransportCall) :=
  match parsed with
  | none => Except.error "SyntaxError: JSON.parse failed"
  | some result =>
    if result.status = some "ok" ∨ result.status = some "no_cookie" then
      match result.bidder_status with
      | some bs => Except.ok (doAllSyncs bs)
      | none => Except.ok []
    else Except.ok []

/-- The XHR success test in `onreadystatechange`:
`(status >= 200 && status < 300) || status === 304`. -/
def xhrSuccessStatus (status : Nat) : Bool :=
  (200 ≤ status && status < 300) || status == 304

/-- The `onreadystatechange` handler at `readyState === 4`: success runs
`callbacks.success` (= `process`), failure runs `callbacks.error`, which
only logs. -/
def onReadyStateChange (readyState status : Nat) (body : Option SyncResponse) :
    Except String (List TransportCall) :=
  if readyState = 4 then
    if xhrSuccessStatus status then process body else Except.ok []
  else Except.ok []

/-- The transport calls a page performs for a given response, as a function
of the module constant `MAX_SYNC_COUNT`.  The constant is a parameter here
precisely to state that the response-processing path never reads it: in
the source it is only serialized into the request payload as `limit`. -/
def pageSyncCalls (maxSyncCount : Int) (parsed : Option SyncResponse) :
    List TransportCall :=
  match process parsed with
  | Except.ok calls => calls
  | Except.error _ => []

/-! ## The consent-gate event loop

All the code runs on the single browser event loop; the interleaving of
the `setTimeout` handler and `message` listener is modelled by a step
function over the page state, driven by a list of events.  The platform
timer fires at most once and not after `clearTimeout`, tracked by
`timerArmed`. -/

/-- The sanitized module-level configuration (`ENDPOINT_ARGS`,
`MAX_SYNC_COUNT`, `DEFAULT_GDPR_SCOPE`). -/
structure Config where
  endpointArgs : Option Obj
  maxSyncCount : Int
  defaultGdprScope : Int
deriving DecidableEq

/-- An inbound `message` event's data, restricted to the fields the script
reads. -/
structure ConsentMessage where
  msgType : String
  consentMetadata : Option Bool
  consentString : Option String
deriving DecidableEq

/-- An event-loop turn relevant to the consent gate. -/
inductive Event where
  | timeoutFires
  | message (data : ConsentMessage)
deriving DecidableEq

/-- The page-load-scoped mutable state: the `consent` cell (its two read
fields), the `syncRan` flag, the armed timer, and the log of payloads the
Sync Requestor has fired (one `ajax` call each). -/
structure PageState where
  consentMetadata : Option Bool
  consentString : Option String
  syncRan : Bool
  timerArmed : Bool
  fired : List Obj
deriving DecidableEq

/-- The state at script start: `consent = {}`, `syncRan = false`, timer
armed, nothing fired. -/
def initialState : PageState :=
  { consentMetadata := none, consentString := none, syncRan := false,
    timerArmed := true, fired := [] }

/-- `init()` : set `syncRan = true`, then issue the ajax call whose body is
`getStringifiedData(ENDPOINT_ARGS)` under the current consent state. -/
def init (cfg : Config) (s : PageState) : PageState :=
  { s with syncRan := true,
           fired := s.fired ++
             [getStringifiedData cfg.endpointArgs cfg.maxSyncCount
                s.consentMetadata s.consentString] }

/-- The `setTimeout` handler: if `syncRan` is still false, fire only when
`DEFAULT_GDPR_SCOPE` is falsy (0); either way the timer is spent. -/
def timeoutStep (cfg : Config) (s : PageState) : PageState :=
  if s.timerArmed = true then
    if s.syncRan = false then
      if cfg.defaultGdprScope = 0 then init cfg { s with timerArmed := false }
      else { s with timerArmed := false }
    else { s with timerArmed := false }
  else s

/-- The `message` listener: on a `consent-data` message, store the payload
into `consent`, `clearTimeout`, and call `init` iff `syncRan` is false. -/
def messageStep (cfg : Config) (s : PageState) (d : ConsentMessage) : PageState :=
  if d.msgType = "consent-data" then
    if s.syncRan = false then
      init cfg { s with consentMetadata := d.consentMetadata,
                        consentString := d.consentString, timerArmed := false }
    else
      { s with consentMetadata := d.consentMetadata,
               consentString := d.consentString, timerArmed := false }
  else s

/-- One event-loop turn. -/
def step (cfg : Config) (s : PageState) : Event → PageState
  | Event.timeoutFires => timeoutStep cfg s
  | Event.message d => messageStep cfg s d

/-- Run the page from script start through a sequence of events. -/
def run (cfg : Config) (events : List Event) : PageState :=
  events.foldl (step cfg) initialState

/-- Whether an event is a `consent-data` message (the only kind the
listener acts on). -/
def isConsentMsg : Event → Bool
  | Event.timeoutFires => false
  | Event.message d => d.msgType == "consent-data"

/-! ## Helper lemmas: object properties -/

theorem getKey_append (l m : Obj) (k : String) :
    getKey (l ++ m) k =
      match getKey l k with
      | some v => some v
      | none => getKey m k := by
  induction l with
  | nil => simp [getKey]
  | cons kv rest ih =>
    obtain ⟨k', v⟩ := kv
    by_cases h : k' = k <;> simp [getKey, h, ih]

theorem getKey_eq_none_of_not_mem (l : Obj) (k : String)
    (h : l.any (fun kv => kv.1 = k) = false) : getKey l k = none := by
  induction l with
  | nil => rfl
  | cons kv rest ih =>
    obtain ⟨k', v⟩ := kv
    simp only [List.any_cons, Bool.or_eq_false_iff] at h
    have hk : k' ≠ k := by
      intro hc; subst hc; simp at h
    simp [getKey, hk, ih h.2]

theorem getKey_map_set (l : Obj) (k : String) (v : JsVal)
    (hmem : l.any (fun kv => kv.1 = k) = true) :
    getKey (l.map (fun kv => if kv.1 = k then (k, v) else kv)) k = some v := by
  induction l with
  | nil => simp at hmem
  | cons kv rest ih =>
    obtain ⟨k', v'⟩ := kv
    simp only [List.map_cons]
    by_cases h : k' = k
    · subst h
      rw [if_pos rfl]
      simp [getKey]
    · rw [if_neg h]
      have hrest : rest.any (fun kv => kv.1 = k) = true := by
        simp only [List.any_cons, Bool.or_eq_true] at hmem
        rcases hmem with h1 | h1
        · exact absurd (of_decide_eq_true h1) h
        · exact h1
      simp [getKey, h, ih hrest]

theorem getKey_map_set_of_ne (l : Obj) (k k' : String) (v : JsVal)
    (h : k' ≠ k) :
    getKey (l.map (fun kv => if kv.1 = k then (k, v) else kv)) k' = getKey l k' := by
  induction l with
  | nil => rfl
  | cons kv rest ih =>
    obtain ⟨ka, va⟩ := kv
    simp only [List.map_cons]
    by_cases hk : ka = k
    · subst hk
      rw [if_pos rfl]
      simp [getKey, Ne.symm h, ih]
    · rw [if_neg hk]
      by_cases hk' : ka = k'
      · simp [getKey, hk']
      · simp [getKey, hk', ih]

theorem getKey_setKey_self (l : Obj) (k : String) (v : JsVal) :
    getKey (setKey l k v) k = some v := by
  unfold setKey
  by_cases hmem : l.any (fun kv => kv.1 = k) = true
  · simp only [hmem, if_true]
    exact getKey_map_set l k v hmem
  · simp only [Bool.not_eq_true] at hmem
    simp only [hmem, Bool.false_eq_true, if_false]
    rw [getKey_append]
    rw [getKey_eq_none_of_not_mem l k hmem]
    simp [getKey]

theorem getKey_setKey_of_ne (l : Obj) (k k' : String) (v : JsVal)
    (h : k' ≠ k) : getKey (setKey l k v) k' = getKey l k' := by
  unfold setKey
  by_cases hmem : l.any (fun kv => kv.1 = k) = true
  · simp only [hmem, if_true]
    exact getKey_map_set_of_ne l k k' v h
  · simp only [Bool.not_eq_true] at hmem
    simp only [hmem, Bool.false_eq_true, if_false]
    rw [getKey_append]
    cases hl : getKey l k' with
    | some v' => rfl
    | none => simp [getKey, Ne.symm h]

/-- The consent attachment never touches the `limit` binding. -/
theorem getKey_attachConsent_limit (meta : Option Bool) (cstr : Option String)
    (data : Obj) : getKey (attachConsent meta cstr data) "limit" = getKey data "limit" := by
  unfold attachConsent
  cases meta with
  | none => rfl
  | some b =>
    by_cases hb : b
    · simp only [hb, if_true]
      rw [getKey_setKey_of_ne _ _ _ _ (by decide)]
      rw [getKey_setKey_of_ne _ _ _ _ (by decide)]
    · simp only [hb, if_false, Bool.false_eq_true]
      rw [getKey_setKey_of_ne _ _ _ _ (by decide)]

/-! ## Helper lemmas: the dispatcher -/

/-- `doBidderSync` invokes its `done` continuation exactly once on every
input: the guard runs before any transport, so `triggerIframeLoad`'s
early-return (the only `done`-less path) is behind `url ≠ ""`. -/
theorem doBidderSync_done_eq_one (type url bidder : String) :
    (doBidderSync type url bidder).done = 1 := by
  unfold doBidderSync
  by_cases h1 : url = "" ∨ isValidUrl url = false
  · simp [h1]
  · simp only [h1, if_false]
    have hurl : ¬ url = "" := fun hc => h1 (Or.inl hc)
    by_cases h2 : type = "image" ∨ type = "redirect"
    · simp [h2, triggerPixel]
    · simp only [h2, if_false]
      by_cases h3 : type = "iframe"
      · simp [h3, triggerIframeLoad, hurl]
      · simp [h3]

/-- The transport loads contributed by one bidder record. -/
def eligCalls (b : BidderStatus) : List TransportCall :=
  (doBidderSync b.usersync.type b.usersync.url b.bidder).calls

/-- The dispatcher drains the reversed list: on `l.reverse` it performs,
in order, the syncs of the `no_cookie` bidders of `l`. -/
theorem doAllSyncs_reverse (l : List BidderStatus) :
    doAllSyncs l.reverse =
      (l.filter (fun b => b.no_cookie)).flatMap eligCalls := by
  induction l with
  | nil =>
    rw [List.reverse_nil, doAllSyncs]
    rfl
  | cons b t ih =>
    rw [List.reverse_cons, doAllSyncs.eq_def]
    split
    · rename_i hnone
      rw [List.getLast?_concat] at hnone
      cases hnone
    · rename_i thisSync hsome
      rw [List.getLast?_concat] at hsome
      cases hsome
      rw [List.dropLast_concat]
      by_cases hb : b.no_cookie
      · simp [hb, doBidderSync_done_eq_one, ih, eligCalls]
      · simp [hb, ih]

/-- The dispatcher's output, characterized on the original list order. -/
theorem doAllSyncs_eq_flatMap (bidders : List BidderStatus) :
    doAllSyncs bidders =
      ((bidders.reverse).filter (fun b => b.no_cookie)).flatMap eligCalls := by
  have h := doAllSyncs_reverse bidders.reverse
  rwa [List.reverse_reverse] at h

/-! ## Helper lemmas: decimal stringify/parse roundtrip

`sanitizeTimeout`'s guard `value === parseInt(value, 10)` holds for every
integer `value` of magnitude below `1e21` (plain-decimal stringification
reparses to the same integer) and fails for every integer of magnitude at
least `1e21` (the exponential stringification reparses to its leading
digit only). -/

theorem decDigit_toNat (d : Nat) (h : d < 10) : (decDigit d).toNat = 48 + d := by
  interval_cases d <;> rfl

theorem isDigitChar_decDigit (d : Nat) (h : d < 10) :
    isDigitChar (decDigit d) = true := by
  interval_cases d <;> rfl

theorem isDigitChar_not_space (c : Char) (h : isDigitChar c = true) :
    jsSpace c = false := by
  unfold isDigitChar at h
  unfold jsSpace
  simp only [Bool.and_eq_true, decide_eq_true_eq] at h
  simp only [Bool.or_eq_false_iff, decide_eq_false_iff_not, Bool.and_eq_false_iff,
    decide_eq_false_iff_not, not_le]
  omega

theorem isDigitChar_ne_minus (c : Char) (h : isDigitChar c = true) : c ≠ '-' := by
  intro hc; subst hc; exact absurd h (by decide)

theorem isDigitChar_ne_plus (c : Char) (h : isDigitChar c = true) : c ≠ '+' := by
  intro hc; subst hc; exact absurd h (by decide)

theorem natDecAux_all_digits (fuel : Nat) :
    ∀ n, n < fuel → ∀ c ∈ natDecAux fuel n, isDigitChar c = true := by
  induction fuel with
  | zero => intro n hn; omega
  | succ f ih =>
    intro n _ c hc
    unfold natDecAux at hc
    by_cases h10 : n < 10
    · simp only [h10, if_true, List.mem_singleton] at hc
      subst hc
      exact isDigitChar_decDigit n h10
    · simp only [h10, if_false, List.mem_append, List.mem_singleton] at hc
      rcases hc with hc | hc
      · have hdiv : n / 10 < f := by
          have := Nat.div_lt_self (by omega : 0 < n) (by omega : 1 < 10)
          omega
        exact ih (n / 10) hdiv c hc
      · subst hc
        exact isDigitChar_decDigit (n % 10) (Nat.mod_lt n (by omega))

theorem natDecAux_ne_nil (fuel n : Nat) (h : n < fuel) :
    natDecAux fuel n ≠ [] := by
  cases fuel with
  | zero => omega
  | succ f =>
    unfold natDecAux
    by_cases h10 : n < 10 <;> simp [h10]

theorem digitsVal_append_digit (l : List Char) (c : Char) :
    ∀ acc, digitsVal acc (l ++ [c]) = (digitsVal acc l) * 10 + (c.toNat - 48) := by
  induction l with
  | nil => intro acc; rfl
  | cons x xs ih =>
    intro acc
    rw [List.cons_append]
    exact ih (acc * 10 + (x.toNat - 48))

theorem digitsVal_natDecAux (fuel : Nat) :
    ∀ n, n < fuel → digitsVal 0 (natDecAux fuel n) = n := by
  induction fuel with
  | zero => intro n hn; omega
  | succ f ih =>
    intro n hn
    unfold natDecAux
    by_cases h10 : n < 10
    · simp only [h10, if_true]
      show 0 * 10 + ((decDigit n).toNat - 48) = n
      rw [decDigit_toNat n h10]
      omega
    · simp only [h10, if_false]
      rw [digitsVal_append_digit]
      have hdiv : n / 10 < f := by
        have := Nat.div_lt_self (by omega : 0 < n) (by omega : 1 < 10)
        omega
      rw [ih (n / 10) hdiv, decDigit_toNat (n % 10) (Nat.mod_lt n (by omega))]
      omega

theorem parseDigits_natDecRepr (n : Nat) : parseDigits (natDecRepr n) = some n := by
  unfold parseDigits natDecRepr
  rw [List.takeWhile_eq_self_iff.mpr (natDecAux_all_digits (n + 1) n (by omega))]
  rw [if_neg (by simpa using natDecAux_ne_nil (n + 1) n (by omega))]
  rw [digitsVal_natDecAux (n + 1) n (by omega)]

theorem jsParseInt_roundtrip (i : Int) (hlt : i.natAbs < 1000000000000000000000) :
    jsParseInt (jsIntToString i) = some i := by
  by_cases hi : i < 0
  · have hdw : (jsIntToString i).data.dropWhile jsSpace = '-' :: natDecRepr i.natAbs := by
      rw [jsIntToString, if_pos hlt, if_pos hi]
      exact List.dropWhile_cons_of_neg (by decide)
    rw [jsParseInt, hdw]
    simp only [jsParseIntAux, if_pos rfl, ite_true, parseDigits_natDecRepr,
      Option.map_some', Int.ofNat_eq_natCast, Option.some.injEq]
    omega
  · obtain ⟨c, cs, hcons⟩ : ∃ c cs, natDecRepr i.natAbs = c :: cs := by
      cases hrepr : natDecRepr i.natAbs with
      | nil => exact absurd hrepr (natDecAux_ne_nil _ _ (by omega))
      | cons c cs => exact ⟨c, cs, rfl⟩
    have hcmem : c ∈ natDecRepr i.natAbs := by
      rw [hcons]; exact List.mem_cons_self c cs
    have hcdig : isDigitChar c = true :=
      natDecAux_all_digits (i.natAbs + 1) i.natAbs (by omega) c hcmem
    have hdw : (jsIntToString i).data.dropWhile jsSpace = c :: cs := by
      rw [jsIntToString, if_pos hlt, if_neg hi]
      show List.dropWhile jsSpace (natDecRepr i.natAbs) = c :: cs
      rw [hcons]
      exact List.dropWhile_cons_of_neg (by simp [isDigitChar_not_space c hcdig])
    rw [jsParseInt, hdw]
    simp only [jsParseIntAux, if_neg (isDigitChar_ne_minus c hcdig),
      if_neg (isDigitChar_ne_plus c hcdig)]
    rw [← hcons, parseDigits_natDecRepr]
    simp only [Option.map_some', Int.ofNat_eq_natCast, Option.some.injEq]
    omega

/-- The exponential notation starts with a digit character, and `parseInt`
applied to it stops at the first non-digit (the decimal point or the `e`),
recovering only the leading digit — a value of at most 9. -/
theorem expNotation_spec (n : Nat) :
    ∃ c cs m, expNotation n = c :: cs ∧ isDigitChar c = true ∧ m ≤ 9 ∧
      parseDigits (expNotation n) = some m := by
  have hdig : ∀ c ∈ sigDigits n, isDigitChar c = true := by
    intro c hc
    apply natDecAux_all_digits (n + 1) n (by omega)
    unfold sigDigits at hc
    rw [List.mem_reverse] at hc
    have hsub := (List.dropWhile_sublist (l := (natDecRepr n).reverse)
      (p := fun c => c = '0')).subset hc
    rw [List.mem_reverse] at hsub
    exact hsub
  cases hsig : sigDigits n with
  | nil =>
    refine ⟨'0', 'e' :: '+' :: natDecRepr ((natDecRepr n).length - 1), 0,
      ?_, by decide, by omega, ?_⟩
    · unfold expNotation
      rw [hsig]
      rfl
    · unfold expNotation parseDigits
      rw [hsig]
      simp only [List.cons_append, List.nil_append]
      rw [List.takeWhile_cons_of_pos (by decide), List.takeWhile_cons_of_neg (by decide)]
      rfl
  | cons d rest =>
    have hd : isDigitChar d = true := hdig d (by rw [hsig]; exact List.mem_cons_self d rest)
    have hd9 : digitsVal 0 [d] ≤ 9 := by
      show 0 * 10 + (d.toNat - 48) ≤ 9
      unfold isDigitChar at hd
      simp only [Bool.and_eq_true, decide_eq_true_eq] at hd
      omega
    cases rest with
    | nil =>
      refine ⟨d, 'e' :: '+' :: natDecRepr ((natDecRepr n).length - 1), digitsVal 0 [d],
        ?_, hd, hd9, ?_⟩
      · unfold expNotation
        rw [hsig]
        rfl
      · unfold expNotation parseDigits
        rw [hsig]
        simp only [List.cons_append, List.nil_append]
        rw [List.takeWhile_cons_of_pos hd, List.takeWhile_cons_of_neg (by decide)]
        rfl
    | cons e rest' =>
      refine ⟨d, '.' :: e :: (rest' ++ 'e' :: '+' :: natDecRepr ((natDecRepr n).length - 1)),
        digitsVal 0 [d], ?_, hd, hd9, ?_⟩
      · unfold expNotation
        rw [hsig]
        simp only [List.cons_append]
      · unfold expNotation parseDigits
        rw [hsig]
        simp only [List.cons_append]
        rw [List.takeWhile_cons_of_pos hd, List.takeWhile_cons_of_neg (by decide)]
        rfl

/-- For an integer of magnitude at least `1e21`, the stringification is
exponential, the reparse recovers at most a single digit, the
`value === parseInt(value, 10)` guard fails, and `sanitizeTimeout`
returns the default. -/
theorem sanitizeTimeout_large (i : Int) (h : 1000000000000000000000 ≤ i.natAbs) :
    sanitizeTimeout (some i) = 10000 := by
  obtain ⟨c, cs, m, hcons, hcdig, hm9, hpd⟩ := expNotation_spec i.natAbs
  have hnlt : ¬ i.natAbs < 1000000000000000000000 := by omega
  have hne : jsParseInt (jsIntToString i) ≠ some i := by
    by_cases hi : i < 0
    · have hdw : (jsIntToString i).data.dropWhile jsSpace = '-' :: expNotation i.natAbs := by
        rw [jsIntToString, if_neg hnlt, if_pos hi]
        exact List.dropWhile_cons_of_neg (by decide)
      rw [jsParseInt, hdw]
      simp only [jsParseIntAux, if_pos rfl, ite_true, hpd, Option.map_some',
        Int.ofNat_eq_natCast, ne_eq, Option.some.injEq]
      omega
    · have hdw : (jsIntToString i).data.dropWhile jsSpace = c :: cs := by
        rw [jsIntToString, if_neg hnlt, if_neg hi]
        show List.dropWhile jsSpace (expNotation i.natAbs) = c :: cs
        rw [hcons]
        exact List.dropWhile_cons_of_neg (by simp [isDigitChar_not_space c hcdig])
      rw [jsParseInt, hdw]
      simp only [jsParseIntAux, if_neg (isDigitChar_ne_minus c hcdig),
        if_neg (isDigitChar_ne_plus c hcdig)]
      rw [← hcons, hpd]
      simp only [ne_eq, Option.map_some', Int.ofNat_eq_natCast, Option.some.injEq]
      omega
  show (if jsParseInt (jsIntToString i) = some i then i else 10000) = 10000
  rw [if_neg hne]

/-! ## Helper lemmas: the event loop -/

/-- Invariant preservation along a run. -/
theorem foldl_preserve (cfg : Config) (P : PageState → Prop) :
    ∀ (events : List Event) (s : PageState), P s →
      (∀ s' e, e ∈ events → P s' → P (step cfg s' e)) →
      P (events.foldl (step cfg) s) := by
  intro events
  induction events with
  | nil => intro s hP _; exact hP
  | cons e es ih =>
    intro s hP hstep
    rw [List.foldl_cons]
    exact ih _ (hstep s e (List.mem_cons_self e es) hP)
      (fun s' e' he' hP' => hstep s' e' (List.mem_cons_of_mem e he') hP')

/-- The fire log holds exactly one payload once `syncRan` is set and none
before, and one step preserves that. -/
theorem step_fired_length (cfg : Config) (s : PageState) (e : Event)
    (h : s.fired.length = if s.syncRan = true then 1 else 0) :
    ((step cfg s e).fired).length = if (step cfg s e).syncRan = true then 1 else 0 := by
  cases e with
  | timeoutFires =>
    show ((timeoutStep cfg s).fired).length =
      if (timeoutStep cfg s).syncRan = true then 1 else 0
    unfold timeoutStep
    by_cases ha : s.timerArmed = true
    · by_cases hr : s.syncRan = false
      · by_cases hs : cfg.defaultGdprScope = 0
        · simp [ha, hr, hs, init, h]
        · simp [ha, hr, hs, h]
      · rw [Bool.not_eq_false] at hr
        simp [ha, hr, h]
    · simp [ha, h]
  | message d =>
    show ((messageStep cfg s d).fired).length =
      if (messageStep cfg s d).syncRan = true then 1 else 0
    unfold messageStep
    by_cases hm : d.msgType = "consent-data"
    · by_cases hr : s.syncRan = false
      · simp [hm, hr, init, h]
      · rw [Bool.not_eq_false] at hr
        simp [hm, hr, h]
    · simp [hm, h]

/-- The fire-count/flag invariant holds at the end of every run. -/
theorem run_fired_length (cfg : Config) (events : List Event) :
    ((run cfg events).fired).length =
      if (run cfg events).syncRan = true then 1 else 0 :=
  foldl_preserve cfg
    (fun s => s.fired.length = if s.syncRan = true then 1 else 0)
    events initialState (by simp [initialState])
    (fun s' e _ hP => step_fired_length cfg s' e hP)

/-! ## The claims -/

/-- Claim C1: for every interleaving of inbound consent-data messages and
timer expirations on the single event-loop thread, the Sync Requestor
(`init`, which issues the ajax call) is invoked at most once per page
load: `syncRan` is false initially, every call to `init` sets it true, and
both the timeout handler and the message handler invoke `init` only when
the flag is false — so the fire count never exceeds 1. -/
theorem claim_C1 :
    initialState.syncRan = false ∧
    (∀ cfg s, (init cfg s).syncRan = true) ∧
    (∀ cfg events, ((run cfg events).fired).length ≤ 1) := by
  refine ⟨rfl, fun cfg s => rfl, fun cfg events => ?_⟩
  rw [run_fired_length]
  split_ifs <;> omega

/-- Claim C2 (counterexample): with sanitized `defaultGdprScope = 1`, after
the timeout elapses with no consent message the page is indeed un-fired,
but a valid consent-data message arriving after the elapsed timer still
fires the Sync Requestor — the page does not remain permanently un-fired,
contradicting the claim. -/
theorem counterexample_C2 :
    (run { endpointArgs := none, maxSyncCount := 10, defaultGdprScope := 1 }
        [Event.timeoutFires]).fired = [] ∧
    ((run { endpointArgs := none, maxSyncCount := 10, defaultGdprScope := 1 }
        [Event.timeoutFires,
         Event.message { msgType := "consent-data", consentMetadata := some true,
                         consentString := some "CONSENT" }]).fired).length = 1 := by
  exact ⟨rfl, rfl⟩

/-- Claim C2 (amended): if the timeout elapses with no consent message and
the sanitized `defaultGdprScope` is 1, the Sync Requestor does not fire at
the timeout, and the page stays un-fired for as long as no consent-data
message arrives; a valid consent-data message arriving after the elapsed
timer does fire it (exactly once). -/
theorem claim_C2_amended (cfg : Config) (events : List Event) (d : ConsentMessage)
    (hscope : cfg.defaultGdprScope = 1)
    (hnomsg : ∀ e ∈ events, isConsentMsg e = false)
    (hd : d.msgType = "consent-data") :
    (run cfg events).fired = [] ∧
    ((run cfg (events ++ [Event.message d])).fired).length = 1 := by
  have hinv : (run cfg events).syncRan = false ∧ (run cfg events).fired = [] := by
    refine foldl_preserve cfg (fun s => s.syncRan = false ∧ s.fired = [])
      events initialState ⟨rfl, rfl⟩ ?_
    intro s' e he hP
    obtain ⟨hP1, hP2⟩ := hP
    cases e with
    | timeoutFires =>
      show (timeoutStep cfg s').syncRan = false ∧ (timeoutStep cfg s').fired = []
      unfold timeoutStep
      have hns : ¬ cfg.defaultGdprScope = 0 := by rw [hscope]; decide
      split_ifs <;> simp_all
    | message d' =>
      have hd' : ¬ d'.msgType = "consent-data" := by
        have := hnomsg _ he
        simpa [isConsentMsg] using this
      show (messageStep cfg s' d').syncRan = false ∧ (messageStep cfg s' d').fired = []
      unfold messageStep
      rw [if_neg hd']
      exact ⟨hP1, hP2⟩
  refine ⟨hinv.2, ?_⟩
  show ((List.foldl (step cfg) initialState (events ++ [Event.message d])).fired).length = 1
  rw [List.foldl_append]
  show ((messageStep cfg (run cfg events) d).fired).length = 1
  unfold messageStep
  rw [if_pos hd, if_pos hinv.1]
  simp [init, hinv.2]

/-- Claim C2 (witness for the amended claim): a concrete page with
`defaultGdprScope = 1` whose timeout elapses un-fired, then fires exactly
once when a late consent message arrives. -/
theorem claim_C2_witness :
    (∀ e ∈ [Event.timeoutFires], isConsentMsg e = false) ∧
    (run { endpointArgs := none, maxSyncCount := 10, defaultGdprScope := 1 }
        [Event.timeoutFires]).fired = [] ∧
    ((run { endpointArgs := none, maxSyncCount := 10, defaultGdprScope := 1 }
        ([Event.timeoutFires] ++
         [Event.message { msgType := "consent-data", consentMetadata := some true,
                          consentString := some "CONSENT" }])).fired).length = 1 :=
  ⟨by decide,
   (claim_C2_amended { endpointArgs := none, maxSyncCount := 10, defaultGdprScope := 1 }
     [Event.timeoutFires]
     { msgType := "consent-data", consentMetadata := some true,
       consentString := some "CONSENT" } rfl (by decide) rfl).1,
   (claim_C2_amended { endpointArgs := none, maxSyncCount := 10, defaultGdprScope := 1 }
     [Event.timeoutFires]
     { msgType := "consent-data", consentMetadata := some true,
       consentString := some "CONSENT" } rfl (by decide) rfl).2⟩

/-- Claim C3 (counterexample): a response body on which `JSON.parse` fails
makes `process` throw — there is no `try`/`catch` around `JSON.parse`, and
the `onreadystatechange` success path runs outside `ajax`'s `try` block,
so the exception (modelled by `Except.error`) escapes to the global
handler, contradicting the claim's "no exception propagates". -/
theorem counterexample_C3 :
    process none = Except.error "SyntaxError: JSON.parse failed" ∧
    onReadyStateChange 4 200 none = Except.error "SyntaxError: JSON.parse failed" :=
  ⟨rfl, rfl⟩

/-- Claim C3 (amended): a parsed response whose status is neither `"ok"`
nor `"no_cookie"`, or which lacks a bidder status list, performs no syncs
and raises no exception; a non-success HTTP status only runs the logging
error callback; but a body on which `JSON.parse` fails performs no syncs
while throwing an uncaught `SyntaxError` out of the response handler. -/
theorem claim_C3_amended :
    (∀ r : SyncResponse, r.status ≠ some "ok" → r.status ≠ some "no_cookie" →
      process (some r) = Except.ok []) ∧
    (∀ r : SyncResponse, r.bidder_status = none → process (some r) = Except.ok []) ∧
    (∀ status body, xhrSuccessStatus status = false →
      onReadyStateChange 4 status body = Except.ok []) ∧
    process none = Except.error "SyntaxError: JSON.parse failed" := by
  refine ⟨?_, ?_, ?_, rfl⟩
  · intro r h1 h2
    show (if r.status = some "ok" ∨ r.status = some "no_cookie" then
            match r.bidder_status with
            | some bs => Except.ok (doAllSyncs bs)
            | none => (Except.ok [] : Except String (List TransportCall))
          else Except.ok []) = Except.ok []
    rw [if_neg (not_or.mpr ⟨h1, h2⟩)]
  · intro r hb
    show (if r.status = some "ok" ∨ r.status = some "no_cookie" then
            match r.bidder_status with
            | some bs => Except.ok (doAllSyncs bs)
            | none => (Except.ok [] : Except String (List TransportCall))
          else Except.ok []) = Except.ok []
    split_ifs with h
    · rw [hb]
    · rfl
  · intro status body h
    unfold onReadyStateChange
    rw [if_pos rfl, if_neg (by rw [h]; decide)]

/-- Claim C3 (witness for the amended claim): concrete no-op inputs and
the concrete parse-failure input. -/
theorem claim_C3_witness :
    process (some { status := some "error", bidder_status := some [] }) = Except.ok [] ∧
    process (some { status := some "ok", bidder_status := none }) = Except.ok [] ∧
    onReadyStateChange 4 500 none = Except.ok [] :=
  ⟨claim_C3_amended.1 { status := some "error", bidder_status := some [] }
     (by decide) (by decide),
   claim_C3_amended.2.1 { status := some "ok", bidder_status := none } rfl,
   claim_C3_amended.2.2.1 500 none (by decide)⟩

/-- Claim C4 (counterexample): an absent `max_sync_count` query parameter
(the empty string, which is falsy) makes the pipeline parse the default
`10`, so the sanitized sync count is `10`, not the maximum-safe-integer
sentinel the claim requires for all malformed-or-absent inputs. -/
theorem counterexample_C4 :
    maxSyncCountOf "" = 10 ∧ (10 : Int) ≠ 9007199254740991 :=
  ⟨rfl, by decide⟩

/-- Claim C4 (amended): a non-numeric `max_sync_count` parameter and a
negative one sanitize to the sentinel `9007199254740991`; an absent
parameter falls back to the default `10` (which the sanitizer passes
through); and every non-negative integer parameter, zero included, is
returned unchanged. -/
theorem claim_C4_amended :
    maxSyncCountOf "" = 10 ∧
    (∀ p, p ≠ "" → jsParseInt p = none → maxSyncCountOf p = 9007199254740991) ∧
    (∀ p i, jsParseInt p = some i → i < 0 → maxSyncCountOf p = 9007199254740991) ∧
    (∀ p i, jsParseInt p = some i → 0 ≤ i → maxSyncCountOf p = i) := by
  refine ⟨rfl, ?_, ?_, ?_⟩
  · intro p hp hnan
    unfold maxSyncCountOf
    rw [if_neg hp, hnan]
    rfl
  · intro p i hp hneg
    have hp0 : p ≠ "" := by
      intro hc
      rw [hc, show jsParseInt "" = none from rfl] at hp
      cases hp
    unfold maxSyncCountOf
    rw [if_neg hp0, hp]
    show (if i < 0 then (9007199254740991 : Int) else i) = 9007199254740991
    rw [if_pos hneg]
  · intro p i hp hge
    have hp0 : p ≠ "" := by
      intro hc
      rw [hc, show jsParseInt "" = none from rfl] at hp
      cases hp
    unfold maxSyncCountOf
    rw [if_neg hp0, hp]
    show (if i < 0 then (9007199254740991 : Int) else i) = i
    rw [if_neg (not_lt.mpr hge)]

/-- Claim C4 (witness for the amended claim): absent, non-numeric,
negative, zero and positive parameters. -/
theorem claim_C4_witness :
    maxSyncCountOf "" = 10 ∧
    maxSyncCountOf "abc" = 9007199254740991 ∧
    maxSyncCountOf "-3" = 9007199254740991 ∧
    maxSyncCountOf "0" = 0 ∧
    maxSyncCountOf "7" = 7 :=
  ⟨claim_C4_amended.1,
   claim_C4_amended.2.1 "abc" (by decide) (by decide),
   claim_C4_amended.2.2.1 "-3" (-3) (by decide) (by decide),
   claim_C4_amended.2.2.2 "0" 0 (by decide) (by decide),
   claim_C4_amended.2.2.2 "7" 7 (by decide) (by decide)⟩

/-- Claim C5 (counterexample): the timeout sanitizer accepts the negative
integer `-5` and returns it unchanged (`-5 === parseInt(-5, 10)` holds),
contradicting the claim that every negative input yields the default
`10000`. -/
theorem counterexample_C5 :
    timeoutOf "-5" = -5 ∧ (-5 : Int) < 0 ∧ (-5 : Int) ≠ 10000 :=
  ⟨by decide, by decide, by decide⟩

/-- Claim C5 (amended): the timeout sanitizer accepts every integer of
magnitude below `1e21` — negative ones included — and returns it
unchanged; `NaN` falls back to the default `10000`, as does every integer
of magnitude `1e21` or more, whose JavaScript stringification is
exponential so the `value === parseInt(value, 10)` reparse check fails. -/
theorem claim_C5_amended :
    (∀ i : Int, i.natAbs < 1000000000000000000000 → sanitizeTimeout (some i) = i) ∧
    (∀ i : Int, 1000000000000000000000 ≤ i.natAbs → sanitizeTimeout (some i) = 10000) ∧
    sanitizeTimeout none = 10000 := by
  refine ⟨fun i hlt => ?_, fun i hge => sanitizeTimeout_large i hge, rfl⟩
  show (if jsParseInt (jsIntToString i) = some i then i else 10000) = i
  rw [if_pos (jsParseInt_roundtrip i hlt)]

/-- Claim C5 (witness for the amended claim): the negative integer `-5` is
below the threshold and kept unchanged, while `1e21` (reachable from a
22-digit `timeout` query parameter) is rejected to `10000`. -/
theorem claim_C5_witness :
    ((-5 : Int)).natAbs < 1000000000000000000000 ∧
    sanitizeTimeout (some (-5)) = -5 ∧
    (1000000000000000000000 : Int).natAbs ≥ 1000000000000000000000 ∧
    sanitizeTimeout (some 1000000000000000000000) = 10000 :=
  ⟨by decide, claim_C5_amended.1 (-5) (by decide), by decide,
   claim_C5_amended.2.1 1000000000000000000000 (by decide)⟩

/-- Claim C6: the dispatcher pops bidders from the tail (reverse of list
order), performs exactly the syncs of the `no_cookie` bidders — each
exactly once, none for the others — terminates on the empty list, and on
the claim's two-bidder example triggers exactly one pixel load (for "a")
and none for "b". -/
theorem claim_C6 :
    doAllSyncs [] = [] ∧
    (∀ bidders : List BidderStatus,
      doAllSyncs bidders =
        ((bidders.reverse).filter (fun b => b.no_cookie)).flatMap eligCalls) ∧
    doAllSyncs
      [{ bidder := "a", no_cookie := true,
         usersync := { type := "image", url := "https://x.test/sync" } },
       { bidder := "b", no_cookie := false,
         usersync := { type := "image", url := "https://y.test/sync" } }]
      = [TransportCall.pixel "https://x.test/sync"] := by
  refine ⟨?_, doAllSyncs_eq_flatMap, ?_⟩
  · rw [doAllSyncs_eq_flatMap]
    rfl
  · rw [doAllSyncs_eq_flatMap]
    decide

/-- Claim C7: a missing (`""`) or regex-rejected sync URL, and an
unsupported sync type, all make `doBidderSync` invoke the `done`
continuation exactly once without any transport call, so the dispatch
chain never stalls on such bidders. -/
theorem claim_C7 (type url bidder : String)
    (h : url = "" ∨ isValidUrl url = false ∨
         (type ≠ "image" ∧ type ≠ "redirect" ∧ type ≠ "iframe")) :
    doBidderSync type url bidder = { calls := [], done := 1 } := by
  unfold doBidderSync
  rcases h with h | h | h
  · rw [if_pos (Or.inl h)]
  · rw [if_pos (Or.inr h)]
  · by_cases hu : url = "" ∨ isValidUrl url = false
    · rw [if_pos hu]
    · rw [if_neg hu, if_neg (not_or.mpr ⟨h.1, h.2.1⟩), if_neg h.2.2]

/-- Claim C7 (witness): the private-range URL `http://192.168.1.1/sync` is
rejected by the validator yet `done` still fires once, and an unsupported
type with a valid URL also continues immediately. -/
theorem claim_C7_witness :
    isValidUrl "http://192.168.1.1/sync" = false ∧
    doBidderSync "image" "http://192.168.1.1/sync" "a" = { calls := [], done := 1 } ∧
    doBidderSync "banner" "https://x.test/sync" "b" = { calls := [], done := 1 } :=
  ⟨by decide,
   claim_C7 "image" "http://192.168.1.1/sync" "a" (Or.inr (Or.inl (by decide))),
   claim_C7 "banner" "https://x.test/sync" "b" (Or.inr (Or.inr (by decide)))⟩

/-- Claim C8: when the Sync Requestor fires via the timeout path with no
consent-data message received (consent still `{}`, sanitized
`defaultGdprScope` 0), every fired payload carries the `limit` field with
`MAX_SYNC_COUNT`, binds every other key exactly as the endpoint args do,
and — the endpoint args themselves not carrying such keys — has neither a
`gdpr` nor a `gdpr_consent` field. -/
theorem claim_C8 (cfg : Config) (events : List Event)
    (hscope : cfg.defaultGdprScope = 0)
    (hnomsg : ∀ e ∈ events, isConsentMsg e = false) :
    ∀ p ∈ (run cfg events).fired,
      getKey p "limit" = some (JsVal.num cfg.maxSyncCount) ∧
      (∀ k, k ≠ "limit" → getKey p k = getKey (cfg.endpointArgs.getD []) k) ∧
      (getKey (cfg.endpointArgs.getD []) "gdpr" = none → getKey p "gdpr" = none) ∧
      (getKey (cfg.endpointArgs.getD []) "gdpr_consent" = none →
        getKey p "gdpr_consent" = none) := by
  have hinv : (run cfg events).consentMetadata = none ∧
      ∀ p ∈ (run cfg events).fired,
        p = setKey (cfg.endpointArgs.getD []) "limit" (JsVal.num cfg.maxSyncCount) := by
    refine foldl_preserve cfg
      (fun s => s.consentMetadata = none ∧
        ∀ p ∈ s.fired,
          p = setKey (cfg.endpointArgs.getD []) "limit" (JsVal.num cfg.maxSyncCount))
      events initialState ⟨rfl, fun p hp => absurd hp (List.not_mem_nil p)⟩ ?_
    intro s' e he hP
    obtain ⟨hmeta, hfired⟩ := hP
    cases e with
    | timeoutFires =>
      show (timeoutStep cfg s').consentMetadata = none ∧
        ∀ p ∈ (timeoutStep cfg s').fired,
          p = setKey (cfg.endpointArgs.getD []) "limit" (JsVal.num cfg.maxSyncCount)
      unfold timeoutStep
      split_ifs
      · refine ⟨hmeta, fun p hp => ?_⟩
        rw [init] at hp
        simp only [List.mem_append, List.mem_singleton] at hp
        rcases hp with hp | hp
        · exact hfired p hp
        · rw [hp, hmeta]
          rfl
      all_goals exact ⟨hmeta, hfired⟩
    | message d' =>
      have hd' : ¬ d'.msgType = "consent-data" := by
        have := hnomsg _ he
        simpa [isConsentMsg] using this
      show (messageStep cfg s' d').consentMetadata = none ∧
        ∀ p ∈ (messageStep cfg s' d').fired,
          p = setKey (cfg.endpointArgs.getD []) "limit" (JsVal.num cfg.maxSyncCount)
      unfold messageStep
      rw [if_neg hd']
      exact ⟨hmeta, hfired⟩
  intro p hp
  rw [hinv.2 p hp]
  refine ⟨getKey_setKey_self _ _ _,
          fun k hk => getKey_setKey_of_ne _ _ _ _ hk, ?_, ?_⟩
  · intro hg
    rw [getKey_setKey_of_ne _ _ _ _ (by decide)]
    exact hg
  · intro hg
    rw [getKey_setKey_of_ne _ _ _ _ (by decide)]
    exact hg

/-- Claim C8 (witness): a concrete page with one endpoint arg, sync limit
5 and scope 0 that fires on the timeout; the fired payload binds `a` and
`limit` and has no `gdpr`/`gdpr_consent` key. -/
theorem claim_C8_witness :
    (∀ e ∈ [Event.timeoutFires], isConsentMsg e = false) ∧
    [("a", JsVal.num 1), ("limit", JsVal.num 5)] ∈
      (run { endpointArgs := some [("a", JsVal.num 1)], maxSyncCount := 5,
             defaultGdprScope := 0 } [Event.timeoutFires]).fired ∧
    getKey [("a", JsVal.num 1), ("limit", JsVal.num 5)] "limit" = some (JsVal.num 5) ∧
    getKey [("a", JsVal.num 1), ("limit", JsVal.num 5)] "gdpr" = none ∧
    getKey [("a", JsVal.num 1), ("limit", JsVal.num 5)] "gdpr_consent" = none := by
  have h := claim_C8
    { endpointArgs := some [("a", JsVal.num 1)], maxSyncCount := 5,
      defaultGdprScope := 0 }
    [Event.timeoutFires] rfl (by decide)
    [("a", JsVal.num 1), ("limit", JsVal.num 5)] (by decide)
  exact ⟨by decide, by decide, h.1, h.2.2.1 (by decide), h.2.2.2 (by decide)⟩

/-- Claim C9: `triggerIframeLoad`'s early-return branch on a falsy URL
never invokes `done` (it would stall the chain), but every call reached
through `doBidderSync` sits behind the dispatcher's own URL guard, so
`doBidderSync` invokes `done` exactly once on every input — the stalling
branch is unreachable from the dispatcher. -/
theorem claim_C9 :
    (∀ bidder, triggerIframeLoad "" bidder = { calls := [], done := 0 }) ∧
    (∀ type url bidder, (doBidderSync type url bidder).done = 1) :=
  ⟨fun _ => rfl, doBidderSync_done_eq_one⟩

/-- Claim C10: the sanitized max sync count never influences which syncs
the dispatcher performs — the response-processing path is the same
function for every `MAX_SYNC_COUNT` — while the constant is serialized
into the request payload as the `limit` field. -/
theorem claim_C10 :
    (∀ maxCount1 maxCount2 : Int, ∀ parsed : Option SyncResponse,
      pageSyncCalls maxCount1 parsed = pageSyncCalls maxCount2 parsed) ∧
    (∀ args maxCount meta cstr,
      getKey (getStringifiedData args maxCount meta cstr) "limit" =
        some (JsVal.num maxCount)) := by
  refine ⟨fun _ _ _ => rfl, fun args maxCount meta cstr => ?_⟩
  calc getKey (getStringifiedData args maxCount meta cstr) "limit"
      = getKey (attachConsent meta cstr
          (setKey (args.getD []) "limit" (JsVal.num maxCount))) "limit" := rfl
    _ = getKey (setKey (args.getD []) "limit" (JsVal.num maxCount)) "limit" :=
        getKey_attachConsent_limit meta cstr _
    _ = some (JsVal.num maxCount) := getKey_setKey_self _ _ _

end CookieSync
